import Mathlib

/-!
Verification of the localization sync pipeline (repository `Localization`).

This file gives a shallow embedding of the sync orchestration and batched
upsert pipeline:

* `requestWithRetry` embeds the retry helper `_request_with_retry`
  (src/clients/upsert_client.py lines 91-121; src/clients/search_client.py
  lines 79-109 is textually identical).
* `upsert` / `upsertBatch` embed `UpsertClient.upsert` and
  `UpsertClient.upsert_batch` (src/clients/upsert_client.py lines 123-223).
* `transformMessages` embeds the locale transform of
  `SyncService.upsert` (src/services/sync_service.py lines 318-329; the
  copy at src/localhost_upsert.py lines 303-314 is identical).
* `syncUpsert` embeds the orchestrator `SyncService.upsert`
  (src/services/sync_service.py lines 211-400) and `upsertMessages` its
  sibling `SyncService.upsert_messages` (lines 402-488).
* `doUpsert` and `doFileUpsert` embed the orchestration closures
  `do_upsert` (lines 244-372) and `do_file_upsert` (lines 181-224) of
  src/localhost_upsert.py.

External effects (HTTP transport, authentication, configuration lookup,
file writes) are modelled by oracle values passed in explicitly; observable
side effects are recorded as event traces.  Wall-clock durations
(`duration_seconds`) and log output are not modelled.
-/

namespace Localization

/-- `LocalizationMessage` (src/models/localization.py lines 48-54). -/
structure LocalizationMessage where
  code : String
  message : String
  module : String
  locale : String
deriving Repr, DecidableEq, Inhabited

/-- `UpsertResult` (src/models/localization.py lines 116-124), with the same
field defaults as the pydantic model. -/
structure UpsertResult where
  success : Bool := true
  created : Nat := 0
  updated : Nat := 0
  failed : Nat := 0
  errors : List String := []
  messages : List LocalizationMessage := []
deriving Repr, DecidableEq, Inhabited

/-- `SyncResult` (src/models/localization.py lines 127-140), with the same
field defaults.  `duration_seconds` (wall-clock float) is not modelled. -/
structure SyncResult where
  success : Bool := true
  source_count : Nat := 0
  target_environment : String := ""
  upsert_results : List UpsertResult := []
  total_created : Nat := 0
  total_updated : Nat := 0
  total_failed : Nat := 0
  error : Option String := none
deriving Repr, DecidableEq, Inhabited

/-- An HTTP response as far as the pipeline inspects it: its status code,
the parsed `messages` field of the JSON body (when present), and the list of
message strings extracted from a structured `Errors` field (when present and
parseable; `none` models both an absent field and an unparseable body). -/
structure HttpResponse where
  status : Nat
  messagesField : Option (List LocalizationMessage) := none
  errorsField : Option (List String) := none
deriving Repr, DecidableEq

/-- One transport interaction: either the server answers with a response
(of any status), or the client library raises a connection/timeout failure
(`httpx.ConnectError` / `httpx.TimeoutException`). -/
inductive TransportStep where
  | response (resp : HttpResponse)
  | connFailure (msg : String)
deriving Repr, DecidableEq

/-- A transport for one logical request: what happens on the i-th attempt. -/
def Transport : Type := Nat → TransportStep

/-- The exceptions the pipeline raises and catches.
`httpStatus` models `httpx.HTTPStatusError` (raised by
`response.raise_for_status()` for statuses >= 400), `connection` models
`httpx.ConnectError` / `httpx.TimeoutException`, and `generic` models any
other `Exception` (e.g. `TypeError`, `ValueError`, or the bare
`Exception("Request failed after retries")`). -/
inductive PyError where
  | httpStatus (resp : HttpResponse)
  | connection (msg : String)
  | generic (msg : String)
deriving Repr, DecidableEq

/-- `str(e)` for a modelled exception. -/
def PyError.text : PyError → String
  | .httpStatus resp => "HTTP status error " ++ toString resp.status
  | .connection msg => msg
  | .generic msg => msg

/-- Loop body of `_request_with_retry` (src/clients/upsert_client.py lines
101-119 and src/clients/search_client.py lines 89-107).  `attempt` is the
Python loop variable; `remaining` counts the iterations left, maintaining
`attempt + remaining = max_retries`, so the loop guard `attempt <
max_retries` becomes `remaining > 0` and the backoff guard `attempt <
max_retries - 1` becomes `remaining > 1`.  Returns the outcome together
with the number of transport calls made and the list of backoff waits (in
seconds, each `2 ^ attempt`) performed, in order. -/
def requestWithRetryGo (t : Transport) :
    Nat → Nat → Option PyError → Except PyError HttpResponse × Nat × List Nat
  | _, 0, lastExc =>
    -- loop exhausted: `raise last_exception or Exception("Request failed after retries")`
    (.error (lastExc.getD (.generic "Request failed after retries")), 0, [])
  | attempt, remaining + 1, _lastExc =>
    match t attempt with
    | .response resp =>
      if 400 ≤ resp.status then
        -- `response.raise_for_status()` raised `httpx.HTTPStatusError`
        if resp.status < 500 then
          -- client error: re-raised immediately, no wait
          (.error (.httpStatus resp), 1, [])
        else
          -- server error: becomes `last_exception`, wait `2 ** attempt` unless last
          let wait := if 0 < remaining then [2 ^ attempt] else []
          let rest := requestWithRetryGo t (attempt + 1) remaining (some (.httpStatus resp))
          (rest.1, rest.2.1 + 1, wait ++ rest.2.2)
      else
        (.ok resp, 1, [])
    | .connFailure msg =>
      -- `httpx.ConnectError` / `httpx.TimeoutException`: becomes `last_exception`
      let wait := if 0 < remaining then [2 ^ attempt] else []
      let rest := requestWithRetryGo t (attempt + 1) remaining (some (.connection msg))
      (rest.1, rest.2.1 + 1, wait ++ rest.2.2)

/-- `_request_with_retry(method, url, ...)` (src/clients/upsert_client.py
lines 91-121; src/clients/search_client.py lines 79-109 is identical):
up to `maxRetries` attempts starting at `attempt = 0` with
`last_exception = None`. -/
def requestWithRetry (t : Transport) (maxRetries : Nat) :
    Except PyError HttpResponse × Nat × List Nat :=
  requestWithRetryGo t 0 maxRetries none

/-- The exception `_request_with_retry` derives from a failed transport step. -/
def stepError : TransportStep → PyError
  | .response resp => .httpStatus resp
  | .connFailure msg => .connection msg

/-- A transport step that the retry loop treats as retryable: a response
with status >= 500, or a connection/timeout failure. -/
def retryableStep : TransportStep → Prop
  | .response resp => 500 ≤ resp.status
  | .connFailure _ => True

/-- A transport step that delivers a response (no connection failure). -/
def responseStep : TransportStep → Prop
  | .response _ => True
  | .connFailure _ => False

/-- A transport for the upsert endpoint: what happens on the i-th attempt
of the request carrying a given batch payload. -/
def BatchTransport : Type := List LocalizationMessage → Nat → TransportStep

/-- Record of the network activity of an upsert call: the total number of
transport-level request attempts, and the batch payloads sent to the
`_upsert` endpoint, in order. -/
structure CallLog where
  calls : Nat
  batches : List (List LocalizationMessage)
deriving Repr, DecidableEq

/-- Error-message extraction of `UpsertClient.upsert` (src/clients/
upsert_client.py lines 178-184): if the error response body carries a
structured `Errors` field, join its per-error messages with "; ",
otherwise keep `str(e)`. -/
def upsertErrorMsg (resp : HttpResponse) : String :=
  match resp.errorsField with
  | some errs => String.intercalate "; " errs
  | none => PyError.text (.httpStatus resp)

/-- `UpsertClient.upsert(messages, tenant_id, module, locale)`
(src/clients/upsert_client.py lines 123-190).  Empty input short-circuits
to a successful result with no network call (lines 142-143).  Otherwise
one request is sent through `_request_with_retry`; a 2xx response yields a
success result with `created = len(result_messages)` (lines 155-174); an
`httpx.HTTPStatusError` is caught and converted to a failure result with
`failed = len(messages)` (lines 176-190); any other exception — connection
or timeout failures re-raised by the retry helper, or its generic
`Exception` — is not caught and propagates to the caller. -/
def upsert (t : BatchTransport) (maxRetries : Nat)
    (messages : List LocalizationMessage) : Except PyError UpsertResult × CallLog :=
  if messages.isEmpty then
    (.ok { success := true, created := 0, updated := 0, failed := 0 }, ⟨0, []⟩)
  else
    let r := requestWithRetry (t messages) maxRetries
    let log : CallLog := ⟨r.2.1, [messages]⟩
    match r.1 with
    | .ok resp =>
      let resultMessages := resp.messagesField.getD []
      (.ok { success := true, created := resultMessages.length, updated := 0, failed := 0,
             messages := resultMessages }, log)
    | .error (.httpStatus resp) =>
      (.ok { success := false, failed := messages.length,
             errors := [upsertErrorMsg resp] }, log)
    | .error e => (.error e, log)

/-- The chunks visited by `for i in range(0, len(messages), batch_size):
batch = messages[i : i + batch_size]` (src/clients/upsert_client.py lines
207-208).  A zero step is never reached through `upsertBatch` (Python
`range` would raise `ValueError`; `upsertBatch` models that separately),
so `chunkList 0` of a non-empty list is left as `[]`. -/
def chunkList : Nat → List α → List (List α)
  | _, [] => []
  | 0, _ :: _ => []
  | b + 1, x :: xs => (x :: xs.take b) :: chunkList (b + 1) (xs.drop b)
termination_by _ xs => xs.length
decreasing_by
  simp only [List.length_drop, List.length_cons]
  omega

/-- The sequential batch loop of `UpsertClient.upsert_batch`
(src/clients/upsert_client.py lines 204-223): each chunk goes through
`upsert` in order; a raised exception aborts the loop (and discards the
results accumulated so far, since the exception propagates past the local
`results` list). -/
def upsertBatchGo (t : BatchTransport) (maxRetries : Nat) :
    List (List LocalizationMessage) → Except PyError (List UpsertResult) × CallLog
  | [] => (.ok [], ⟨0, []⟩)
  | batch :: rest =>
    let r := upsert t maxRetries batch
    match r.1 with
    | .error e => (.error e, r.2)
    | .ok res =>
      let r2 := upsertBatchGo t maxRetries rest
      match r2.1 with
      | .error e => (.error e, ⟨r.2.calls + r2.2.calls, r.2.batches ++ r2.2.batches⟩)
      | .ok results =>
        (.ok (res :: results), ⟨r.2.calls + r2.2.calls, r.2.batches ++ r2.2.batches⟩)

/-- `UpsertClient.upsert_batch(messages, tenant_id, module, locale,
batch_size)` (src/clients/upsert_client.py lines 192-223).  Empty input
returns the empty result list immediately (lines 201-202).  A zero
`batch_size` makes Python's `range(0, n, 0)` raise `ValueError`. -/
def upsertBatch (t : BatchTransport) (maxRetries : Nat)
    (messages : List LocalizationMessage) (batchSize : Nat) :
    Except PyError (List UpsertResult) × CallLog :=
  if messages.isEmpty then (.ok [], ⟨0, []⟩)
  else if batchSize = 0 then
    (.error (.generic "range() arg 3 must not be zero"), ⟨0, []⟩)
  else
    upsertBatchGo t maxRetries (chunkList batchSize messages)

/-- The locale transform step of `SyncService.upsert`
(src/services/sync_service.py lines 318-329): if the target locale differs
from the source locale, build new `LocalizationMessage` instances with the
locale replaced and code/message/module copied; otherwise the list passes
through unchanged. -/
def transformMessages (sourceLocale targetLocale : String)
    (messages : List LocalizationMessage) : List LocalizationMessage :=
  if targetLocale ≠ sourceLocale then
    messages.map fun msg =>
      { code := msg.code, message := msg.message, module := msg.module,
        locale := targetLocale }
  else
    messages

/-- Observable side effects of one orchestration run, in order. -/
inductive SyncEvent where
  | authCall
  | searchCall
  | saveSearchResponse (messages : List LocalizationMessage)
  | saveUpsertBody (messages : List LocalizationMessage)
  | updateUpsertRequest (messages : List LocalizationMessage)
  | upsertBatchSent (batch : List LocalizationMessage)
deriving Repr, DecidableEq

/-- `str(e)` of the `TypeError` raised by the calls
`UpsertClient(base_url=..., api_key=..., request_info=...)` at
src/services/sync_service.py lines 356-359 and 450-453: they pass an
`api_key` keyword, but `UpsertClient.__init__` accepts only `base_url`,
`timeout`, `max_retries` and `request_info`
(src/clients/upsert_client.py lines 19-25). -/
def upsertClientApiKeyError : String :=
  "UpsertClient.__init__() got an unexpected keyword argument api_key"

/-- `str(e)` of the `AttributeError` raised by
`self.settings.get_api_key(...)` (called at src/services/sync_service.py
lines 142, 241, 246 and 417): `Settings` (src/config/settings.py) defines
no `get_api_key` method — its callables are `_get_env_config`,
`get_api_url`, `get_tenant_id`, `get_auth_url`, `get_upsert_url`,
`get_locale` and the property `is_localhost` — and a pydantic model raises
`AttributeError` when an undefined attribute is accessed. -/
def settingsGetApiKeyError : String :=
  "Settings object has no attribute get_api_key"

/-- `SyncService.upsert(source_env, target_env, lang, module, batch_size,
auth_token, ...)` (src/services/sync_service.py lines 211-400).

The statements before the `try` block at line 256 resolve configuration:

* line 240, `self.settings.get_api_url(source_env)`, raises `ValueError`
  when the source environment is unknown or has no configured API URL
  (src/config/settings.py lines 96-105); `sourceApiUrl` models its outcome;
* line 241, `self.settings.get_api_key(source_env)`, raises
  `AttributeError` unconditionally, because `Settings` has no
  `get_api_key` method.

Both raises happen before the `try` statement, so the exception escapes to
the caller.  Since line 241 always raises, no invocation of
`SyncService.upsert` ever reaches lines 242-400 — the authentication,
search, persistence, locale-transform, upsert and aggregation steps, the
`Succeeded-Empty` early return at lines 296-302, the `UpsertClient`
construction at lines 356-359, and the `except` handler at lines 392-400
are all dead code from this entry point — no observable side effect is
performed and no `SyncResult` is returned.  The remaining parameters
mirror the Python signature but cannot influence the result. -/
def syncUpsert (sourceApiUrl : Except String String) (_targetEnv : String)
    (_moduleFilter : Option String) (_batchSize _maxRetries : Nat)
    (_authToken : Option String) (_hasUpsertRequestInfo : Bool) :
    Except String SyncResult × List SyncEvent :=
  match sourceApiUrl with
  | .error e => (.error e, [])
  | .ok _sourceUrl => (.error settingsGetApiKeyError, [])

/-- Oracle for `SyncService.upsert_messages`: `targetApiUrl` models
`settings.get_api_url(target_env)` (reached through `get_upsert_url` only
when not in localhost mode), `auth` models `self.authenticate(...)`
(src/services/sync_service.py lines 427-433), `transport` the HTTP
transport behind its `UpsertClient`. -/
structure UpsertMessagesOracle where
  targetApiUrl : Except String String
  auth : Except String String
  transport : BatchTransport

/-- `SyncService.upsert_messages(target_env, messages, tenant_id, module,
locale, batch_size, auth_token, ...)` (src/services/sync_service.py lines
402-488).

Lines 416-417 run before the `try` statement at line 422:

* line 416, `self.settings.get_upsert_url(target_env)`: in localhost mode
  (`is_localhost`) it returns the local URL without touching any other
  getter; otherwise it calls `get_api_url(target_env)`, which may raise
  `ValueError` (modelled by `o.targetApiUrl`);
* line 417, `self.settings.get_api_key(target_env) if not
  self.settings.is_localhost else None`: in localhost mode the conditional
  short-circuits past `get_api_key`; otherwise the call raises
  `AttributeError`, since `Settings` has no such method.

So only localhost-mode runs reach the `try` block.  Inside it: authenticate
unless a token is available (lines 424-434), update `requests/upsert.json`
when a request-info template was loaded (lines 436-448), then construct the
`UpsertClient` (lines 450-453) — which passes the unexpected keyword
`api_key` and therefore raises `TypeError` unconditionally; the `.ok`
branch of `clientInit` mirrors the remaining lines 455-478 (batched upsert
and aggregation) but is unreachable.  The `except` handler (lines 480-488)
converts any exception raised inside the `try` block into a failure
`SyncResult` with `source_count = len(messages)`.

`authToken` models `auth_token or self._auth_token`;
`hasUpsertRequestInfo` models whether `_load_request_info("upsert.json")`
found a template.  File reads/writes are modelled as succeeding, with each
write recorded as an event. -/
def upsertMessages (o : UpsertMessagesOracle) (isLocalhost : Bool)
    (targetEnv : String) (messages : List LocalizationMessage)
    (batchSize maxRetries : Nat) (authToken : Option String)
    (hasUpsertRequestInfo : Bool) : Except String SyncResult × List SyncEvent :=
  let resolved : Except String Unit :=
    if isLocalhost then .ok ()
    else
      match o.targetApiUrl with
      | .error e => .error e
      | .ok _ => .error settingsGetApiKeyError
  match resolved with
  | .error e => (.error e, [])
  | .ok _ =>
    let (tokenRes, authEvents) :=
      match authToken with
      | some tok => (Except.ok tok, ([] : List SyncEvent))
      | none => (o.auth, [SyncEvent.authCall])
    match tokenRes with
    | .error e =>
      (.ok { success := false, source_count := messages.length,
             target_environment := targetEnv, error := some e }, authEvents)
    | .ok _token =>
      let events1 := if hasUpsertRequestInfo
        then authEvents ++ [SyncEvent.updateUpsertRequest messages]
        else authEvents
      let clientInit : Except String Unit := .error upsertClientApiKeyError
      match clientInit with
      | .error e =>
        (.ok { success := false, source_count := messages.length,
               target_environment := targetEnv, error := some e }, events1)
      | .ok _ =>
        let r := upsertBatch o.transport maxRetries messages batchSize
        let events2 := events1 ++ r.2.batches.map SyncEvent.upsertBatchSent
        match r.1 with
        | .error e =>
          (.ok { success := false, source_count := messages.length,
                 target_environment := targetEnv,
                 error := some (PyError.text e) }, events2)
        | .ok results =>
          (.ok { success := results.all (·.success),
                 source_count := messages.length,
                 target_environment := targetEnv,
                 upsert_results := results,
                 total_created := (results.map (·.created)).sum,
                 total_updated := (results.map (·.updated)).sum,
                 total_failed := (results.map (·.failed)).sum }, events2)

/-- Oracle for the search-and-upsert entry point of src/localhost_upsert.py:
`auth` models `_authenticate(settings, target_env)` (lines 88-105),
`sourceApiUrl` models `settings.get_api_url(source_env)` at line 258
(inside the `try` block there), `search` models
`search_client.search(...)` (lines 264-268), `transport` the HTTP
transport behind its `UpsertClient`. -/
structure DoUpsertOracle where
  auth : Except String String
  sourceApiUrl : Except String String
  search : Except String (List LocalizationMessage)
  transport : BatchTransport

/-- The `do_upsert` closure of src/localhost_upsert.py (lines 244-372) —
the reachable orchestration run with a search step: this module never calls
`get_api_key` and constructs both clients with valid keywords only.

Inside its `try` block (lines 246-362): authenticate (lines 247),
resolve the source URL (line 258, raising `ValueError` only for an
unconfigured source environment), search (lines 259-268), return a
trivially successful `SyncResult` when no messages were found (lines
273-279), save the raw search response (lines 281-301), transform the
locale exactly as `transformMessages` (lines 303-314), save the upsert
body (lines 316-333), run `upsert_batch` against the localhost listener
(lines 335-346, `UpsertClient` built without `api_key`), and aggregate
(lines 348-362).  The `except` handler (lines 364-372) converts any
exception raised inside the `try` block into a failure `SyncResult` with
`source_count = 0`. -/
def doUpsert (o : DoUpsertOracle) (port : Nat)
    (sourceLocale targetLocale : String) (moduleFilter : Option String)
    (batchSize maxRetries : Nat) : SyncResult × List SyncEvent :=
  let targetName := "localhost:" ++ toString port
  match o.auth with
  | .error e =>
    ({ success := false, source_count := 0, target_environment := targetName,
       error := some e }, [SyncEvent.authCall])
  | .ok _tok =>
    match o.sourceApiUrl with
    | .error e =>
      ({ success := false, source_count := 0, target_environment := targetName,
         error := some e }, [SyncEvent.authCall])
    | .ok _sourceUrl =>
      match o.search with
      | .error e =>
        ({ success := false, source_count := 0, target_environment := targetName,
           error := some e }, [SyncEvent.authCall, SyncEvent.searchCall])
      | .ok messages =>
        let events0 := [SyncEvent.authCall, SyncEvent.searchCall]
        let sourceCount := messages.length
        if messages.isEmpty then
          ({ success := true, source_count := 0,
             target_environment := targetName }, events0)
        else
          let events1 := events0 ++ [SyncEvent.saveSearchResponse messages]
          let transformed := transformMessages sourceLocale targetLocale messages
          let _upsertModule := moduleFilter.getD (transformed.headD default).module
          let events2 := events1 ++ [SyncEvent.saveUpsertBody transformed]
          let r := upsertBatch o.transport maxRetries transformed batchSize
          let events3 := events2 ++ r.2.batches.map SyncEvent.upsertBatchSent
          match r.1 with
          | .error e =>
            ({ success := false, source_count := 0,
               target_environment := targetName,
               error := some (PyError.text e) }, events3)
          | .ok results =>
            ({ success := results.all (·.success),
               source_count := sourceCount,
               target_environment := targetName,
               upsert_results := results,
               total_created := (results.map (·.created)).sum,
               total_updated := (results.map (·.updated)).sum,
               total_failed := (results.map (·.failed)).sum }, events3)

/-- Oracle for the file-replay entry point of src/localhost_upsert.py:
`auth` models `_authenticate(settings, target_env)` (lines 88-105),
`transport` the HTTP transport behind its `UpsertClient`. -/
structure FileUpsertOracle where
  auth : Except String String
  transport : BatchTransport

/-- The `do_file_upsert` closure of src/localhost_upsert.py (lines 181-224):
authenticate, run `upsert_batch` against the localhost listener (this
`UpsertClient` construction at lines 189-192 passes only valid keywords),
aggregate the batch outcomes (lines 201-215), and convert any exception
raised inside the `try` block into a failure `SyncResult` (lines 216-224).
The whole body sits inside `try`/`except`, so this entry point always
returns a `SyncResult`. -/
def doFileUpsert (o : FileUpsertOracle) (port : Nat)
    (messages : List LocalizationMessage) (batchSize maxRetries : Nat) :
    SyncResult × List SyncEvent :=
  let targetName := "localhost:" ++ toString port
  match o.auth with
  | .error e =>
    ({ success := false, source_count := messages.length,
       target_environment := targetName, error := some e }, [SyncEvent.authCall])
  | .ok _tok =>
    let r := upsertBatch o.transport maxRetries messages batchSize
    let events := [SyncEvent.authCall] ++ r.2.batches.map SyncEvent.upsertBatchSent
    match r.1 with
    | .error e =>
      ({ success := false, source_count := messages.length,
         target_environment := targetName, error := some (PyError.text e) }, events)
    | .ok results =>
      ({ success := results.all (·.success),
         source_count := messages.length,
         target_environment := targetName,
         upsert_results := results,
         total_created := (results.map (·.created)).sum,
         total_updated := (results.map (·.updated)).sum,
         total_failed := (results.map (·.failed)).sum }, events)

/-! ## Retry policy (claims C4, C5) -/

/-- Prepending the wait of the current iteration to the waits of the
remaining iterations gives the full backoff wait list. -/
theorem waitChain (attempt r' : Nat) :
    ([2 ^ attempt] ++ (List.range (r' + 1 - 1)).map fun a => 2 ^ (attempt + 1 + a)) =
    (List.range (r' + 1 + 1 - 1)).map fun a => 2 ^ (attempt + a) := by
  have h1 : r' + 1 - 1 = r' := by omega
  have h2 : r' + 1 + 1 - 1 = r' + 1 := by omega
  rw [h1, h2, List.range_succ_eq_map, List.map_cons, List.map_map]
  simp only [Nat.add_zero, List.singleton_append]
  congr 1
  congr 1
  funext a
  simp only [Function.comp_apply]
  congr 1
  omega

/-- When every attempt in range fails with a retryable outcome (status >=
500 or a connection failure), the retry loop runs through all remaining
iterations, makes one transport call per iteration, waits `2 ^ attempt`
after every iteration but the last, and ends up re-raising the exception
derived from the last attempt. -/
theorem requestWithRetryGo_all_retryable (t : Transport) :
    ∀ (remaining attempt : Nat) (lastExc : Option PyError), 0 < remaining →
    (∀ i, attempt ≤ i → i < attempt + remaining → retryableStep (t i)) →
    requestWithRetryGo t attempt remaining lastExc =
      (.error (stepError (t (attempt + remaining - 1))), remaining,
       (List.range (remaining - 1)).map fun a => 2 ^ (attempt + a)) := by
  intro remaining
  induction remaining with
  | zero => intro attempt lastExc h; exact absurd h (by omega)
  | succ r ih =>
    intro attempt lastExc _h hall
    have hat := hall attempt (Nat.le_refl _) (by omega)
    cases r with
    | zero =>
      rcases hstep : t attempt with resp | msg
      · rw [hstep] at hat
        have h500 : 500 ≤ resp.status := hat
        simp only [requestWithRetryGo, hstep]
        rw [if_pos (by omega : 400 ≤ resp.status), if_neg (by omega : ¬ resp.status < 500)]
        simp [requestWithRetryGo, stepError, hstep]
      · simp [requestWithRetryGo, hstep, stepError]
    | succ r' =>
      rcases hstep : t attempt with resp | msg
      · rw [hstep] at hat
        have h500 : 500 ≤ resp.status := hat
        rw [requestWithRetryGo]
        simp only [hstep]
        rw [if_pos (by omega : 400 ≤ resp.status), if_neg (by omega : ¬ resp.status < 500)]
        rw [ih (attempt + 1) (some (.httpStatus resp)) (by omega)
          (fun i h1 h2 => hall i (by omega) (by omega))]
        have hidx : attempt + 1 + (r' + 1) - 1 = attempt + (r' + 1 + 1) - 1 := by omega
        rw [hidx, if_pos (by omega : 0 < r' + 1), waitChain]
      · rw [requestWithRetryGo]
        simp only [hstep]
        rw [ih (attempt + 1) (some (.connection msg)) (by omega)
          (fun i h1 h2 => hall i (by omega) (by omega))]
        have hidx : attempt + 1 + (r' + 1) - 1 = attempt + (r' + 1 + 1) - 1 := by omega
        rw [hidx, if_pos (by omega : 0 < r' + 1), waitChain]

/-- C4: for every transport that always returns an HTTP status >= 500 or
always fails with a connection/timeout error (the hypothesis allows any
mixture of retryable failures), `_request_with_retry` makes exactly
`maxRetries` attempts, waits `2^0, 2^1, ..., 2^(maxRetries-2)` seconds
between consecutive attempts, and then re-raises the exception encountered
on the last attempt. -/
theorem requestWithRetry_exhausts_retries (t : Transport) (maxRetries : Nat)
    (hmr : 1 ≤ maxRetries)
    (hall : ∀ i, i < maxRetries → retryableStep (t i)) :
    requestWithRetry t maxRetries =
      (.error (stepError (t (maxRetries - 1))), maxRetries,
       (List.range (maxRetries - 1)).map fun a => 2 ^ a) := by
  unfold requestWithRetry
  rw [requestWithRetryGo_all_retryable t maxRetries 0 none hmr
    (fun i _ h2 => hall i (by omega))]
  simp

/-- Witness for C4: a transport answering 503 on every attempt, with
`maxRetries = 3`: three calls, waits of 1 and 2 seconds, and the 503
status error is re-raised. -/
theorem requestWithRetry_exhausts_retries_witness :
    requestWithRetry (fun _ => .response ⟨503, none, none⟩) 3 =
      (.error (.httpStatus ⟨503, none, none⟩), 3, [1, 2]) := by
  rw [requestWithRetry_exhausts_retries (fun _ => .response ⟨503, none, none⟩) 3
    (by omega) (fun i _ => by show 500 ≤ 503; omega)]
  rfl

/-- C5: a first response whose status is an error below 500 (e.g. 400) is
re-raised at once: exactly one transport call, no backoff wait, and the
status error propagates. -/
theorem requestWithRetry_client_error_immediate (t : Transport) (maxRetries : Nat)
    (resp : HttpResponse) (hmr : 1 ≤ maxRetries) (h0 : t 0 = .response resp)
    (h400 : 400 ≤ resp.status) (h500 : resp.status < 500) :
    requestWithRetry t maxRetries = (.error (.httpStatus resp), 1, []) := by
  cases maxRetries with
  | zero => omega
  | succ m =>
    unfold requestWithRetry
    simp only [requestWithRetryGo, h0]
    rw [if_pos h400, if_pos h500]

/-- Witness for C5: a transport answering 400 on the first attempt with
`maxRetries = 3`: one call, no waits, immediate error. -/
theorem requestWithRetry_client_error_immediate_witness :
    requestWithRetry (fun _ => .response ⟨400, none, none⟩) 3 =
      (.error (.httpStatus ⟨400, none, none⟩), 1, []) :=
  requestWithRetry_client_error_immediate (fun _ => .response ⟨400, none, none⟩) 3
    ⟨400, none, none⟩ (by omega) rfl (by decide) (by decide)

/-! ## Empty input (claim C2) -/

/-- Counterexample to C2 as stated: `upsert_batch` applied to the empty
message list returns the empty outcome list — zero outcomes, not one — and
makes zero network calls; in particular its result differs from a single
trivially-successful outcome. -/
theorem upsertBatch_empty_counterexample :
    upsertBatch (fun _ _ => .response ⟨200, some [], none⟩) 3 [] 100 =
      (.ok [], ⟨0, []⟩) ∧
    (upsertBatch (fun _ _ => .response ⟨200, some [], none⟩) 3 [] 100).1 ≠
      .ok [{ success := true, created := 0, updated := 0, failed := 0 }] := by
  refine ⟨rfl, fun hc => ?_⟩
  rw [show (upsertBatch (fun _ _ => .response ⟨200, some [], none⟩) 3 [] 100).1 =
    .ok ([] : List UpsertResult) from rfl] at hc
  simp at hc

/-- C2 amended: `upsert_batch` with an empty message list returns the empty
outcome list (zero outcomes) and makes zero network calls; the single-batch
`upsert` with an empty message list is the operation that short-circuits to
exactly one outcome with `success=true` and all counts zero, again with no
network call. -/
theorem upsertBatch_empty_amended (t : BatchTransport) (maxRetries batchSize : Nat) :
    upsertBatch t maxRetries [] batchSize = (.ok [], ⟨0, []⟩) ∧
    upsert t maxRetries [] =
      (.ok { success := true, created := 0, updated := 0, failed := 0 }, ⟨0, []⟩) :=
  ⟨rfl, rfl⟩

/-! ## Batch partitioning (claim C3) -/

theorem chunkList_nil (b : Nat) : chunkList b ([] : List α) = [] := by
  rw [chunkList]

theorem chunkList_cons (b : Nat) (x : α) (xs : List α) :
    chunkList (b + 1) (x :: xs) = (x :: xs.take b) :: chunkList (b + 1) (xs.drop b) := by
  rw [chunkList]

/-- Concatenating the chunks in order reconstructs the original list. -/
theorem chunkList_flatten (b : Nat) :
    ∀ (n : Nat) (msgs : List α), msgs.length ≤ n →
      (chunkList (b + 1) msgs).flatten = msgs := by
  intro n
  induction n with
  | zero =>
    intro msgs h
    have hm : msgs = [] := List.length_eq_zero.mp (by omega)
    subst hm
    rw [chunkList_nil, List.flatten_nil]
  | succ n ih =>
    intro msgs h
    match msgs with
    | [] => rw [chunkList_nil, List.flatten_nil]
    | x :: xs =>
      rw [chunkList_cons, List.flatten_cons]
      rw [ih (xs.drop b) (by rw [List.length_drop]; simp at h; omega)]
      rw [List.cons_append, List.take_append_drop]

/-- The number of chunks is the ceiling of `length / batchSize`. -/
theorem chunkList_length (b : Nat) :
    ∀ (n : Nat) (msgs : List α), msgs.length ≤ n →
      (chunkList (b + 1) msgs).length = (msgs.length + b) / (b + 1) := by
  intro n
  induction n with
  | zero =>
    intro msgs h
    have hm : msgs = [] := List.length_eq_zero.mp (by omega)
    subst hm
    rw [chunkList_nil]
    have hd : b / (b + 1) = 0 := Nat.div_eq_of_lt (by omega)
    simp [hd]
  | succ n ih =>
    intro msgs h
    match msgs with
    | [] =>
      rw [chunkList_nil]
      have hd : b / (b + 1) = 0 := Nat.div_eq_of_lt (by omega)
      simp [hd]
    | x :: xs =>
      rw [chunkList_cons, List.length_cons,
        ih (xs.drop b) (by rw [List.length_drop]; simp at h; omega),
        List.length_drop, List.length_cons]
      by_cases hb : b ≤ xs.length
      · have h1 : xs.length - b + b = xs.length := by omega
        have h2 : xs.length + 1 + b = xs.length + (b + 1) := by omega
        rw [h1, h2, Nat.add_div_right _ (by omega)]
      · have h1 : xs.length - b + b = b := by omega
        have h2 : b / (b + 1) = 0 := Nat.div_eq_of_lt (by omega)
        have h3 : (xs.length + 1 + b) / (b + 1) = 1 := by
          have hx : xs.length + 1 + b = xs.length + (b + 1) := by omega
          rw [hx, Nat.add_div_right _ (by omega),
            Nat.div_eq_of_lt (by omega : xs.length < b + 1)]
        rw [h1, h2, h3]

/-- Every chunk is non-empty and holds at most `batchSize` elements. -/
theorem chunkList_sizes (b : Nat) :
    ∀ (n : Nat) (msgs : List α), msgs.length ≤ n →
      ∀ c ∈ chunkList (b + 1) msgs, c.length ≤ b + 1 ∧ c ≠ [] := by
  intro n
  induction n with
  | zero =>
    intro msgs h c hc
    have hm : msgs = [] := List.length_eq_zero.mp (by omega)
    subst hm
    rw [chunkList_nil] at hc
    exact absurd hc (List.not_mem_nil c)
  | succ n ih =>
    intro msgs h c hc
    match msgs with
    | [] =>
      rw [chunkList_nil] at hc
      exact absurd hc (List.not_mem_nil c)
    | x :: xs =>
      rw [chunkList_cons] at hc
      rcases List.mem_cons.mp hc with hc | hc
      · subst hc
        constructor
        · rw [List.length_cons, List.length_take]
          omega
        · exact List.cons_ne_nil x _
      · exact ih (xs.drop b) (by rw [List.length_drop]; simp at h; omega) c hc

/-- Every chunk except possibly the last holds exactly `batchSize`
elements. -/
theorem chunkList_full (b : Nat) :
    ∀ (n : Nat) (msgs : List α), msgs.length ≤ n →
      ∀ i, i + 1 < (chunkList (b + 1) msgs).length →
        ((chunkList (b + 1) msgs).getD i []).length = b + 1 := by
  intro n
  induction n with
  | zero =>
    intro msgs h i hi
    have hm : msgs = [] := List.length_eq_zero.mp (by omega)
    subst hm
    rw [chunkList_nil] at hi
    simp at hi
  | succ n ih =>
    intro msgs h i hi
    match msgs with
    | [] =>
      rw [chunkList_nil] at hi
      simp at hi
    | x :: xs =>
      rw [chunkList_cons] at hi ⊢
      cases i with
      | zero =>
        rw [List.getD_cons_zero, List.length_cons, List.length_take]
        rw [List.length_cons] at hi
        have hrest : chunkList (b + 1) (xs.drop b) ≠ [] := by
          intro hrest
          rw [hrest] at hi
          simp at hi
        have hdrop : xs.drop b ≠ [] := by
          intro hd
          rw [hd, chunkList_nil] at hrest
          exact hrest rfl
        have hlen : b < xs.length := by
          by_contra hcon
          exact hdrop (List.drop_eq_nil_iff.mpr (by omega))
        omega
      | succ i =>
        rw [List.getD_cons_succ]
        rw [List.length_cons] at hi
        exact ih (xs.drop b) (by rw [List.length_drop]; simp at h; omega) i (by omega)

/-- Evaluation of `upsert` on a non-empty batch, as a case split on the
outcome of the retried request. -/
theorem upsert_nonempty (t : BatchTransport) (maxRetries : Nat)
    (messages : List LocalizationMessage) (hm : messages.isEmpty = false) :
    upsert t maxRetries messages =
      match (requestWithRetry (t messages) maxRetries).1 with
      | .ok resp =>
        (.ok { success := true, created := (resp.messagesField.getD []).length,
               updated := 0, failed := 0, messages := resp.messagesField.getD [] },
         ⟨(requestWithRetry (t messages) maxRetries).2.1, [messages]⟩)
      | .error (.httpStatus resp) =>
        (.ok { success := false, failed := messages.length,
               errors := [upsertErrorMsg resp] },
         ⟨(requestWithRetry (t messages) maxRetries).2.1, [messages]⟩)
      | .error e =>
        (.error e, ⟨(requestWithRetry (t messages) maxRetries).2.1, [messages]⟩) := by
  unfold upsert
  rw [if_neg (by simp [hm])]

/-- C7: every `UpsertResult` that `upsert` returns (and hence every outcome
in an `upsert_batch` result, which is built exclusively from `upsert`
return values) satisfies the invariant `failed > 0 ⇒ success = false` and
`success = true ⇒ errors = []`. -/
theorem upsert_outcome_invariant (t : BatchTransport) (maxRetries : Nat)
    (messages : List LocalizationMessage) (r : UpsertResult)
    (h : (upsert t maxRetries messages).1 = .ok r) :
    (0 < r.failed → r.success = false) ∧ (r.success = true → r.errors = []) := by
  by_cases hm : messages.isEmpty = true
  · have he : upsert t maxRetries messages =
        (.ok { success := true, created := 0, updated := 0, failed := 0 }, ⟨0, []⟩) := by
      unfold upsert
      rw [if_pos hm]
    rw [he] at h
    injection h with h
    subst h
    exact ⟨fun hf => absurd hf (by simp), fun _ => rfl⟩
  · have hm' : messages.isEmpty = false := by simpa using hm
    rw [upsert_nonempty t maxRetries messages hm'] at h
    rcases hq : (requestWithRetry (t messages) maxRetries).1 with e | resp
    · rcases e with resp | msg | msg <;> rw [hq] at h
      · injection h with h
        subst h
        exact ⟨fun _ => rfl, fun hx => by simp at hx⟩
      · exact Except.noConfusion h
      · exact Except.noConfusion h
    · rw [hq] at h
      injection h with h
      subst h
      exact ⟨fun hf => absurd hf (by simp), fun _ => rfl⟩

/-- Witness for C7 at a concrete failing upsert: a 400 response turns into
a returned failure outcome, which satisfies the invariant. -/
theorem upsert_outcome_invariant_witness :
    (0 < ({ success := false, failed := 1,
            errors := ["HTTP status error 400"] } : UpsertResult).failed →
      ({ success := false, failed := 1,
         errors := ["HTTP status error 400"] } : UpsertResult).success = false) ∧
    (({ success := false, failed := 1,
        errors := ["HTTP status error 400"] } : UpsertResult).success = true →
      ({ success := false, failed := 1,
         errors := ["HTTP status error 400"] } : UpsertResult).errors = []) :=
  upsert_outcome_invariant (fun _ _ => .response ⟨400, none, none⟩) 3
    [⟨"k1", "v1", "m", "en_MZ"⟩]
    { success := false, failed := 1, errors := ["HTTP status error 400"] }
    rfl

/-! ## Locale transform (claim C8) -/

/-- C8: the orchestrator's transform step keeps the list length, passes the
original records through unchanged when the target locale equals the source
locale, and otherwise rewrites exactly the locale field of every element to
the target locale, leaving code, message and module unchanged. -/
theorem transformMessages_preserves_fields (sourceLocale targetLocale : String)
    (messages : List LocalizationMessage) :
    (transformMessages sourceLocale targetLocale messages).length = messages.length ∧
    (targetLocale = sourceLocale →
      transformMessages sourceLocale targetLocale messages = messages) ∧
    ∀ i, i < messages.length →
      ((transformMessages sourceLocale targetLocale messages).getD i default).code =
        (messages.getD i default).code ∧
      ((transformMessages sourceLocale targetLocale messages).getD i default).message =
        (messages.getD i default).message ∧
      ((transformMessages sourceLocale targetLocale messages).getD i default).module =
        (messages.getD i default).module ∧
      (targetLocale ≠ sourceLocale →
        ((transformMessages sourceLocale targetLocale messages).getD i default).locale =
          targetLocale) := by
  unfold transformMessages
  by_cases h : targetLocale = sourceLocale
  · rw [if_neg (by simp [h])]
    exact ⟨rfl, fun _ => rfl, fun i hi => ⟨rfl, rfl, rfl, fun hne => absurd h hne⟩⟩
  · rw [if_pos h]
    refine ⟨by simp, fun heq => absurd heq h, fun i hi => ?_⟩
    rw [List.getD_eq_getElem?_getD, List.getElem?_map]
    rcases hx : messages[i]? with _ | msg
    · exact absurd (List.getElem?_eq_none_iff.mp hx) (by omega)
    · rw [List.getD_eq_getElem?_getD, hx]
      exact ⟨rfl, rfl, rfl, fun _ => rfl⟩

/-- Witness for C8 at the spec's P5 example: transforming
`{code:"k1", message:"v1", module:"m", locale:"en_MZ"}` to locale `en_IN`
keeps code, message and module and rewrites the locale. -/
theorem transformMessages_preserves_fields_witness :
    ((transformMessages "en_MZ" "en_IN" [⟨"k1", "v1", "m", "en_MZ"⟩]).getD 0
        default).code = "k1" ∧
    ((transformMessages "en_MZ" "en_IN" [⟨"k1", "v1", "m", "en_MZ"⟩]).getD 0
        default).message = "v1" ∧
    ((transformMessages "en_MZ" "en_IN" [⟨"k1", "v1", "m", "en_MZ"⟩]).getD 0
        default).module = "m" ∧
    ((transformMessages "en_MZ" "en_IN" [⟨"k1", "v1", "m", "en_MZ"⟩]).getD 0
        default).locale = "en_IN" := by
  have h := (transformMessages_preserves_fields "en_MZ" "en_IN"
    [⟨"k1", "v1", "m", "en_MZ"⟩]).2.2 0 (by decide)
  refine ⟨h.1.trans (by decide), h.2.1.trans (by decide), h.2.2.1.trans (by decide),
    h.2.2.2 (by decide)⟩

/-! ## Batch partitioning, client level (claim C3) -/

/-- When the transport always delivers a response (no connection failures),
the retry loop always terminates in an `ok` response or an
`httpStatus` error — the two cases `upsert` handles without raising. -/
theorem requestWithRetryGo_responses (t : Transport)
    (hresp : ∀ i, responseStep (t i)) :
    ∀ (remaining attempt : Nat) (lastExc : Option PyError),
      (0 < remaining ∨ ∃ resp, lastExc = some (.httpStatus resp)) →
      (∃ resp, (requestWithRetryGo t attempt remaining lastExc).1 = .ok resp) ∨
      (∃ resp, (requestWithRetryGo t attempt remaining lastExc).1 =
        .error (.httpStatus resp)) := by
  intro remaining
  induction remaining with
  | zero =>
    intro attempt lastExc h
    rcases h with h | ⟨resp, hE⟩
    · omega
    · subst hE
      right
      exact ⟨resp, rfl⟩
  | succ r ih =>
    intro attempt lastExc _
    rcases hstep : t attempt with resp | msg
    · rw [requestWithRetryGo]
      simp only [hstep]
      by_cases h4 : 400 ≤ resp.status
      · by_cases h5 : resp.status < 500
        · rw [if_pos h4, if_pos h5]
          right
          exact ⟨resp, rfl⟩
        · rw [if_pos h4, if_neg h5]
          exact ih (attempt + 1) (some (.httpStatus resp)) (Or.inr ⟨resp, rfl⟩)
      · rw [if_neg h4]
        left
        exact ⟨resp, rfl⟩
    · have hx := hresp attempt
      rw [hstep] at hx
      exact hx.elim

/-- A non-empty batch whose transport always responds yields a returned
(not raised) outcome, and logs exactly its own payload as sent. -/
theorem upsert_ok_of_responses (t : BatchTransport) (maxRetries : Nat)
    (batch : List LocalizationMessage)
    (hresp : ∀ i, responseStep (t batch i)) (hmr : 1 ≤ maxRetries)
    (hb : batch ≠ []) :
    ∃ res, upsert t maxRetries batch =
      (.ok res, ⟨(requestWithRetry (t batch) maxRetries).2.1, [batch]⟩) := by
  have hm' : batch.isEmpty = false := List.isEmpty_eq_false.mpr hb
  rw [upsert_nonempty t maxRetries batch hm']
  rcases requestWithRetryGo_responses (t batch) hresp maxRetries 0 none
      (Or.inl (by omega)) with ⟨resp, hE⟩ | ⟨resp, hE⟩ <;>
    rw [show (requestWithRetry (t batch) maxRetries).1 =
      (requestWithRetryGo (t batch) 0 maxRetries none).1 from rfl, hE]
  · exact ⟨_, rfl⟩
  · exact ⟨_, rfl⟩

/-- The batch loop over non-empty chunks, under a transport that always
responds: one returned outcome per chunk, all chunks sent in order. -/
theorem upsertBatchGo_ok (t : BatchTransport) (maxRetries : Nat)
    (hmr : 1 ≤ maxRetries)
    (hresp : ∀ batch i, responseStep (t batch i)) :
    ∀ chunks : List (List LocalizationMessage), (∀ c ∈ chunks, c ≠ []) →
      ∃ results calls,
        upsertBatchGo t maxRetries chunks = (.ok results, ⟨calls, chunks⟩) ∧
        results.length = chunks.length := by
  intro chunks
  induction chunks with
  | nil => exact fun _ => ⟨[], 0, rfl, rfl⟩
  | cons c rest ih =>
    intro hne
    obtain ⟨res, hres⟩ :=
      upsert_ok_of_responses t maxRetries c (hresp c) hmr (hne c (by simp))
    obtain ⟨results, calls, hgo, hlen⟩ := ih (fun x hx => hne x (by simp [hx]))
    refine ⟨res :: results, (requestWithRetry (t c) maxRetries).2.1 + calls, ?_,
      by simp [hlen]⟩
    rw [upsertBatchGo]
    simp only [hres, hgo, List.singleton_append]

/-- C3: for every message list and positive batch size, under a transport
that always delivers responses (so that every batch produces an outcome
rather than raising), `upsert_batch` returns exactly
`ceil(length / batchSize)` outcomes; the batches it sends are precisely the
consecutive chunks, each of size at most `batchSize`, every chunk except
possibly the last of size exactly `batchSize`, and their concatenation in
processing order reconstructs the original list. -/
theorem upsertBatch_partitioning (t : BatchTransport)
    (maxRetries batchSize : Nat) (messages : List LocalizationMessage)
    (hmr : 1 ≤ maxRetries) (hb : 0 < batchSize)
    (hresp : ∀ batch i, responseStep (t batch i)) :
    ∃ results calls,
      upsertBatch t maxRetries messages batchSize =
        (.ok results, ⟨calls, chunkList batchSize messages⟩) ∧
      results.length = (messages.length + batchSize - 1) / batchSize ∧
      (chunkList batchSize messages).flatten = messages ∧
      (∀ c ∈ chunkList batchSize messages, c.length ≤ batchSize) ∧
      (∀ i, i + 1 < (chunkList batchSize messages).length →
        ((chunkList batchSize messages).getD i []).length = batchSize) := by
  obtain ⟨b, rfl⟩ : ∃ b, batchSize = b + 1 := ⟨batchSize - 1, by omega⟩
  have hceil : messages.length + (b + 1) - 1 = messages.length + b := by omega
  by_cases hm : messages.isEmpty = true
  · have hmsgs : messages = [] := List.isEmpty_iff.mp hm
    subst hmsgs
    refine ⟨[], 0, ?_, ?_, ?_, ?_, ?_⟩
    · rw [chunkList_nil]
      rfl
    · rw [hceil]
      simp [Nat.div_eq_of_lt (by omega : b < b + 1)]
    · rw [chunkList_nil, List.flatten_nil]
    · rw [chunkList_nil]
      exact fun c hc => absurd hc (List.not_mem_nil c)
    · rw [chunkList_nil]
      intro i hi
      simp at hi
  · have hm' : messages.isEmpty = false := by simpa using hm
    obtain ⟨results, calls, hgo, hlen⟩ :=
      upsertBatchGo_ok t maxRetries hmr hresp (chunkList (b + 1) messages)
        (fun c hc =>
          (chunkList_sizes b messages.length messages (Nat.le_refl _) c hc).2)
    refine ⟨results, calls, ?_, ?_, ?_, ?_, ?_⟩
    · unfold upsertBatch
      rw [if_neg (by simp [hm']), if_neg (by omega : ¬b + 1 = 0)]
      exact hgo
    · rw [hlen, hceil, chunkList_length b messages.length messages (Nat.le_refl _)]
    · exact chunkList_flatten b messages.length messages (Nat.le_refl _)
    · exact fun c hc =>
        (chunkList_sizes b messages.length messages (Nat.le_refl _) c hc).1
    · exact chunkList_full b messages.length messages (Nat.le_refl _)

/-- Witness for C3 at the spec's Scenario B shape in miniature: five
messages with batch size 2 give three batches of sizes 2, 2, 1. -/
theorem upsertBatch_partitioning_witness :
    ∃ results calls,
      upsertBatch (fun _ _ => .response ⟨200, some [], none⟩) 3
          [⟨"k1", "v1", "m", "en_MZ"⟩, ⟨"k2", "v2", "m", "en_MZ"⟩,
           ⟨"k3", "v3", "m", "en_MZ"⟩, ⟨"k4", "v4", "m", "en_MZ"⟩,
           ⟨"k5", "v5", "m", "en_MZ"⟩] 2 =
        (.ok results,
         ⟨calls, chunkList 2
           [⟨"k1", "v1", "m", "en_MZ"⟩, ⟨"k2", "v2", "m", "en_MZ"⟩,
            ⟨"k3", "v3", "m", "en_MZ"⟩, ⟨"k4", "v4", "m", "en_MZ"⟩,
            ⟨"k5", "v5", "m", "en_MZ"⟩]⟩) ∧
      results.length = 3 := by
  obtain ⟨results, calls, hgo, hlen, -, -, -⟩ :=
    upsertBatch_partitioning (fun _ _ => .response ⟨200, some [], none⟩) 3 2
      [⟨"k1", "v1", "m", "en_MZ"⟩, ⟨"k2", "v2", "m", "en_MZ"⟩,
       ⟨"k3", "v3", "m", "en_MZ"⟩, ⟨"k4", "v4", "m", "en_MZ"⟩,
       ⟨"k5", "v5", "m", "en_MZ"⟩]
      (by omega) (by omega) (fun _ _ => trivial)
  exact ⟨results, calls, hgo, hlen.trans (by decide)⟩

/-! ## Connection failures raise (claim C10) -/

/-- When every attempt fails at the connection level, the retry loop ends
by re-raising a connection error. -/
theorem requestWithRetryGo_conn (t : Transport)
    (hconn : ∀ i, ∃ m, t i = .connFailure m) :
    ∀ (remaining attempt : Nat) (lastExc : Option PyError),
      (0 < remaining ∨ ∃ m, lastExc = some (.connection m)) →
      ∃ m, (requestWithRetryGo t attempt remaining lastExc).1 =
        .error (.connection m) := by
  intro remaining
  induction remaining with
  | zero =>
    intro attempt lastExc h
    rcases h with h | ⟨m, hE⟩
    · omega
    · subst hE
      exact ⟨m, rfl⟩
  | succ r ih =>
    intro attempt lastExc _
    obtain ⟨m, hstep⟩ := hconn attempt
    rw [requestWithRetryGo]
    simp only [hstep]
    exact ih (attempt + 1) (some (.connection m)) (Or.inr ⟨m, rfl⟩)

/-- A non-empty batch whose transport always fails at the connection level
makes `upsert` raise the connection error rather than return an outcome. -/
theorem upsert_conn (t : BatchTransport) (maxRetries : Nat)
    (batch : List LocalizationMessage) (hmr : 1 ≤ maxRetries) (hb : batch ≠ [])
    (hconn : ∀ i, ∃ m, t batch i = .connFailure m) :
    ∃ m, upsert t maxRetries batch =
      (.error (.connection m),
       ⟨(requestWithRetry (t batch) maxRetries).2.1, [batch]⟩) := by
  rw [upsert_nonempty t maxRetries batch (List.isEmpty_eq_false.mpr hb)]
  obtain ⟨m, hE⟩ :=
    requestWithRetryGo_conn (t batch) hconn maxRetries 0 none (Or.inl (by omega))
  rw [show (requestWithRetry (t batch) maxRetries).1 =
    (requestWithRetryGo (t batch) 0 maxRetries none).1 from rfl, hE]
  exact ⟨m, rfl⟩

/-- C10: when the transport fails with a connection/timeout error on every
attempt, (1) the single-batch `upsert` raises that exception instead of
returning a failure outcome, (2) `upsert_batch` aborts on its first batch —
only the first chunk is ever sent, the remaining batches are not attempted,
and no outcome list is returned — and (3) the error surfaces only as a
run-level `SyncResult` failure at the orchestration boundary (here the
file-replay entry point of src/localhost_upsert.py, whose `try` block wraps
the whole run). -/
theorem upsert_conn_error_raises (t : BatchTransport)
    (maxRetries batchSize port : Nat) (messages : List LocalizationMessage)
    (tok : String) (hmr : 1 ≤ maxRetries) (hb : 0 < batchSize)
    (hne : messages ≠ [])
    (hconn : ∀ batch i, ∃ m, t batch i = .connFailure m) :
    (∃ m, (upsert t maxRetries messages).1 = .error (.connection m)) ∧
    (∃ m, (upsertBatch t maxRetries messages batchSize).1 =
        .error (.connection m) ∧
      (upsertBatch t maxRetries messages batchSize).2.batches =
        [(chunkList batchSize messages).getD 0 []]) ∧
    (∃ m, doFileUpsert ⟨.ok tok, t⟩ port messages batchSize maxRetries =
      ({ success := false, source_count := messages.length,
         target_environment := "localhost:" ++ toString port, error := some m },
       [SyncEvent.authCall,
        SyncEvent.upsertBatchSent ((chunkList batchSize messages).getD 0 [])])) := by
  obtain ⟨b, rfl⟩ : ∃ b, batchSize = b + 1 := ⟨batchSize - 1, by omega⟩
  obtain ⟨x, xs, rfl⟩ : ∃ x xs, messages = x :: xs := by
    cases messages with
    | nil => exact absurd rfl hne
    | cons x xs => exact ⟨x, xs, rfl⟩
  obtain ⟨m, hkeyU⟩ := upsert_conn t maxRetries (x :: xs.take b) hmr
    (List.cons_ne_nil x _) (hconn _)
  have hkeyB : upsertBatch t maxRetries (x :: xs) (b + 1) =
      (.error (.connection m),
       ⟨(requestWithRetry (t (x :: xs.take b)) maxRetries).2.1,
        [x :: xs.take b]⟩) := by
    unfold upsertBatch
    rw [if_neg (by simp), if_neg (by omega), chunkList_cons, upsertBatchGo]
    simp only [hkeyU]
  have hchunk0 : (chunkList (b + 1) (x :: xs)).getD 0 [] = x :: xs.take b := by
    rw [chunkList_cons, List.getD_cons_zero]
  refine ⟨?_, ⟨m, by rw [hkeyB], by rw [hkeyB, hchunk0]⟩, ⟨m, ?_⟩⟩
  · obtain ⟨m', hup⟩ := upsert_conn t maxRetries (x :: xs) hmr
      (List.cons_ne_nil x _) (hconn _)
    exact ⟨m', by rw [hup]⟩
  · unfold doFileUpsert
    simp only [hkeyB, hchunk0, List.map_cons, List.map_nil]
    rfl

/-- Witness for C10: two messages, batch size 1, a transport refusing every
connection: upsert raises, only the first of the two batches is sent, and
the file-replay run returns a failure result. -/
theorem upsert_conn_error_raises_witness :
    (∃ m, (upsert (fun _ _ => .connFailure "connection refused") 3
        [⟨"k1", "v1", "m", "en_MZ"⟩, ⟨"k2", "v2", "m", "en_MZ"⟩]).1 =
      .error (.connection m)) ∧
    (∃ m, (upsertBatch (fun _ _ => .connFailure "connection refused") 3
        [⟨"k1", "v1", "m", "en_MZ"⟩, ⟨"k2", "v2", "m", "en_MZ"⟩] 1).1 =
        .error (.connection m) ∧
      (upsertBatch (fun _ _ => .connFailure "connection refused") 3
        [⟨"k1", "v1", "m", "en_MZ"⟩, ⟨"k2", "v2", "m", "en_MZ"⟩] 1).2.batches =
        [(chunkList 1 [⟨"k1", "v1", "m", "en_MZ"⟩,
            ⟨"k2", "v2", "m", "en_MZ"⟩]).getD 0 []]) ∧
    (∃ m, doFileUpsert ⟨.ok "tok", fun _ _ => .connFailure "connection refused"⟩
        8765 [⟨"k1", "v1", "m", "en_MZ"⟩, ⟨"k2", "v2", "m", "en_MZ"⟩] 1 3 =
      ({ success := false, source_count := 2,
         target_environment := "localhost:" ++ toString 8765,
         error := some m },
       [SyncEvent.authCall,
        SyncEvent.upsertBatchSent ((chunkList 1 [⟨"k1", "v1", "m", "en_MZ"⟩,
          ⟨"k2", "v2", "m", "en_MZ"⟩]).getD 0 [])])) :=
  upsert_conn_error_raises (fun _ _ => .connFailure "connection refused") 3 1 8765
    [⟨"k1", "v1", "m", "en_MZ"⟩, ⟨"k2", "v2", "m", "en_MZ"⟩] "tok"
    (by omega) (by omega) (by simp) (fun _ _ => ⟨"connection refused", rfl⟩)
/-! ## Orchestrator boundary (claims C1, C6, C9) -/

/-- Counterexample to C1 as stated: concrete invocations of
`SyncService.upsert` deliver a raised exception to the caller, not a
`SyncResult` — the `ValueError` from an unconfigured source environment at
line 240, and, with a resolvable URL, the `AttributeError` from the call
to the undefined `Settings.get_api_key` at line 241; both precede the
`try` block at line 256. -/
theorem syncUpsert_exception_escapes :
    syncUpsert (.error "No API URL configured for environment: qa") "uat"
        none 100 3 none true =
      (.error "No API URL configured for environment: qa", []) ∧
    syncUpsert (.ok "https://qa.example/api") "uat" none 100 3 none true =
      (.error settingsGetApiKeyError, []) :=
  ⟨rfl, rfl⟩

/-- C1 amended: every invocation of `SyncService.upsert` raises during the
resolution code that precedes the `try` block, and the exception escapes
to the caller unconditionally: `ValueError` when the source environment's
API URL cannot be resolved (line 240), and otherwise `AttributeError` from
the call to the undefined `Settings.get_api_key` (line 241).  No
invocation returns a `SyncResult` or performs any observable side effect;
the catch-and-convert handler at lines 392-400 is unreachable from this
entry point. -/
theorem syncUpsert_always_raises (sourceApiUrl : Except String String)
    (targetEnv : String) (moduleFilter : Option String)
    (batchSize maxRetries : Nat) (authToken : Option String)
    (hasUpsertRequestInfo : Bool) :
    ∃ e, syncUpsert sourceApiUrl targetEnv moduleFilter batchSize maxRetries
        authToken hasUpsertRequestInfo = (.error e, []) ∧
      (∀ u, sourceApiUrl = .ok u → e = settingsGetApiKeyError) ∧
      (∀ e0, sourceApiUrl = .error e0 → e = e0) := by
  rcases sourceApiUrl with e0 | u
  · exact ⟨e0, rfl, fun u hu => Except.noConfusion hu,
      fun e1 he => Except.error.inj he⟩
  · exact ⟨settingsGetApiKeyError, rfl, fun u hu => rfl,
      fun e0 he => Except.noConfusion he⟩

/-- Witness for the amended C1 at a concrete resolvable URL: the run
raises the `get_api_key` `AttributeError`. -/
theorem syncUpsert_always_raises_witness :
    ∃ e, syncUpsert (.ok "https://uat.example/api") "uat" none 100 3 none
        true = (.error e, []) ∧
      (∀ u, (Except.ok "https://uat.example/api" : Except String String) =
        .ok u → e = settingsGetApiKeyError) ∧
      (∀ e0, (Except.ok "https://uat.example/api" : Except String String) =
        .error e0 → e = e0) :=
  syncUpsert_always_raises (.ok "https://uat.example/api") "uat" none 100 3
    none true

/-- C6, failing inputs: no orchestration run of `SyncService` ever
aggregates batch outcomes.  First conjunct: `SyncService.upsert` raises
`AttributeError` at line 241 before its `try` block, so it returns no
`SyncResult` at all and sends no batch.  Second conjunct:
`SyncService.upsert_messages` in localhost mode survives resolution (lines
416-417 skip `get_api_key`), but the `UpsertClient` construction at lines
450-453 passes the unexpected keyword `api_key` — `UpsertClient.__init__`
(src/clients/upsert_client.py lines 19-25) has no such parameter, unlike
`SearchClient.__init__` and unlike the correct constructions at
src/localhost_upsert.py lines 189-192 and 336-339 — so the run ends as a
caught `TypeError`: `success=false`, empty `upsert_results`, zero totals,
no batch sent, and the aggregation at lines 463-478 (and likewise lines
370-390) never executes. -/
theorem upsertMessages_apiKey_typeError :
    syncUpsert (.ok "https://uat.example/api") "demo" none 100 3 none true =
      (.error settingsGetApiKeyError, []) ∧
    upsertMessages ⟨.ok "https://uat.example/api", .ok "tok",
        fun _ _ => .response ⟨200, some [], none⟩⟩ true "uat"
      [⟨"k1", "v1", "m", "en_IN"⟩] 100 3 (some "tok") true =
      (.ok { success := false, source_count := 1, target_environment := "uat",
             error := some upsertClientApiKeyError },
       [SyncEvent.updateUpsertRequest [⟨"k1", "v1", "m", "en_IN"⟩]]) :=
  ⟨rfl, rfl⟩

/-- C9, failing input: `SyncService.upsert` raises `AttributeError` at
line 241 on every invocation, before the search step ever runs, so none of
its runs can have a search step returning zero messages and the
`Succeeded-Empty` return at lines 296-302 is unreachable (first conjunct:
the run escapes with no events — in particular no search call, no artifact
write, no upsert call).  The claimed behavior is the clear intent: the
reachable sibling orchestration `do_upsert` (src/localhost_upsert.py lines
244-372, which never touches `get_api_key`) implements it verbatim at
lines 273-279 — an empty search yields `success=true`, `source_count=0`,
with no upsert-body artifact written and no upsert call made (second
conjunct: the trace holds the authentication and search calls only). -/
theorem syncUpsert_empty_search_unreachable :
    syncUpsert (.ok "https://qa.example/api") "temp" none 100 3 none true =
      (.error settingsGetApiKeyError, []) ∧
    doUpsert ⟨.ok "tok", .ok "https://qa.example/api", .ok [],
        fun _ _ => .response ⟨200, some [], none⟩⟩ 8765 "en_MZ" "en_IN"
      (some "digit-ui") 100 3 =
      ({ success := true, source_count := 0,
         target_environment := "localhost:" ++ toString 8765 },
       [SyncEvent.authCall, SyncEvent.searchCall]) :=
  ⟨rfl, rfl⟩

end Localization
